import Mathlib

/-!
Verification of the scanning-policy-termination pipeline of the EDR
kill-switch agent (a Tauri application plus a CLI daemon, written in Rust).

The development shallowly embeds the code under `src/src-tauri/src/`:

* `edr/policy.rs`  — `PolicyEngine::evaluate` and `matches_rule`,
* `edr/killer.rs`  — `ProcessKiller::kill_process` (cooldown / retry / kill),
* `edr/scanner.rs` — `ProcessScanner::calculate_file_hash` (memoized hash),
* `edr/logger.rs`  — `Logger::log_event` (in-memory ring buffer, file sink),
* `main.rs`        — the orchestrator: `is_whitelisted`, `is_blacklisted`,
  the per-process bodies of `start_single_scan` and `start_daemon`,
  `push_activity`, and the restart-block map.

Machine integers: the Rust code uses `u32` PIDs, `u64` millisecond
durations and `u32` retry counters.  None of the embedded code paths can
overflow them (counters only grow by 1 per call, times are compared), so
they are modelled as `Nat`; `Instant` timestamps are modelled as `Nat`
milliseconds from an arbitrary epoch of a monotonic clock.

`HashMap` values are modelled as association lists with front-shadowing
insert; lookups see the most recent insert, exactly as a map does.
-/

namespace Edr

/-! ### Association lists: the model of `std::collections::HashMap` -/

/-- Lookup in an association list: the value of the most recent insert
for the key, `none` if absent (`HashMap::get`). -/
def alLookup {α β : Type} [BEq α] (m : List (α × β)) (k : α) : Option β :=
  (m.find? (fun e => e.1 == k)).map (fun e => e.2)

/-- Insert into an association list by shadowing (`HashMap::insert`):
later lookups of `k` see `v`, other keys are unaffected. -/
def alInsert {α β : Type} (m : List (α × β)) (k : α) (v : β) : List (α × β) :=
  (k, v) :: m

theorem alLookup_alInsert_self {α β : Type} [BEq α] [LawfulBEq α]
    (m : List (α × β)) (k : α) (v : β) :
    alLookup (alInsert m k v) k = some v := by
  simp [alLookup, alInsert, List.find?]

theorem alLookup_alInsert_ne {α β : Type} [BEq α] [LawfulBEq α]
    (m : List (α × β)) (k k' : α) (v : β) (h : k' ≠ k) :
    alLookup (alInsert m k' v) k = alLookup m k := by
  have hb : (k' == k) = false := by
    exact beq_false_of_ne h
  simp [alLookup, alInsert, List.find?, hb]

/-! ### ASCII case-insensitive comparison (`str::eq_ignore_ascii_case`,
`str::to_ascii_lowercase`) -/

/-- ASCII lowercasing of one character (`u8::to_ascii_lowercase`):
`A`..`Z` map to `a`..`z`, all other characters are unchanged. -/
def asciiLowerChar (c : Char) : Char :=
  if 65 ≤ c.toNat ∧ c.toNat ≤ 90 then Char.ofNat (c.toNat + 32) else c

/-- ASCII lowercasing of a string (`str::to_ascii_lowercase`). -/
def asciiLowerStr (s : String) : List Char :=
  s.toList.map asciiLowerChar

/-- Case-insensitive ASCII string equality (`str::eq_ignore_ascii_case`). -/
def eqIgnoreAsciiCase (s t : String) : Bool :=
  asciiLowerStr s == asciiLowerStr t

/-! ### Glob matching (the `wildcard_match` crate)

The pattern language used by the orchestrator's name and path rules:
`*` matches any (possibly empty) sequence of characters, every other
character matches itself literally (the spec: glob, no character
classes).  Both sides are ASCII-lowercased by the callers before
matching. -/

/-- Glob match of a pattern against a string, both as character lists. -/
def globMatch : List Char → List Char → Bool
  | [], [] => true
  | [], _ :: _ => false
  | '*' :: ps, [] => globMatch ps []
  | '*' :: ps, c :: ss => globMatch ps (c :: ss) || globMatch ('*' :: ps) ss
  | p :: ps, c :: ss => p == c && globMatch ps ss
  | _ :: _, [] => false
termination_by ps ss => (ps.length, ss.length)

/-! ### Regular expressions (the `regex` crate, as used by Command rules)

`policy.rs` compiles `Command` rule patterns with `Regex::new` and tests
them with `Regex::is_match` (an unanchored search: does any substring of
the haystack match?).  The model covers the fragment of the crate's
syntax actually exercised by the development: literal characters,
`.` (any character), `|` (alternation), postfix `*` (Kleene star),
grouping `( )`, and `\` escapes.  Constructs outside the fragment make
the parser fail; in particular an unbalanced `(` is a parse error, as it
is in the crate.  Matching is by Brzozowski derivatives. -/

/-- Abstract syntax of the regex fragment (`emp` is the empty language,
produced only by derivatives). -/
inductive RE : Type
  | emp : RE
  | eps : RE
  | chr : Char → RE
  | dot : RE
  | alt : RE → RE → RE
  | cat : RE → RE → RE
  | star : RE → RE
deriving DecidableEq

/-- Whether a regex accepts the empty string. -/
def reNullable : RE → Bool
  | RE.emp => false
  | RE.eps => true
  | RE.chr _ => false
  | RE.dot => false
  | RE.alt a b => reNullable a || reNullable b
  | RE.cat a b => reNullable a && reNullable b
  | RE.star _ => true

/-- Brzozowski derivative of a regex by one character. -/
def reDeriv : RE → Char → RE
  | RE.emp, _ => RE.emp
  | RE.eps, _ => RE.emp
  | RE.chr c, a => if c == a then RE.eps else RE.emp
  | RE.dot, _ => RE.eps
  | RE.alt x y, a => RE.alt (reDeriv x a) (reDeriv y a)
  | RE.cat x y, a =>
    if reNullable x then RE.alt (RE.cat (reDeriv x a) y) (reDeriv y a)
    else RE.cat (reDeriv x a) y
  | RE.star x, a => RE.cat (reDeriv x a) (RE.star x)

/-- Does some prefix of the character list match the regex? -/
def rePrefixMatch : RE → List Char → Bool
  | r, [] => reNullable r
  | r, c :: cs => reNullable r || rePrefixMatch (reDeriv r c) cs

/-- Unanchored search (`Regex::is_match`): does the regex match starting
at some position of the haystack? -/
def reIsMatch : RE → List Char → Bool
  | r, [] => reNullable r
  | r, c :: cs => rePrefixMatch r (c :: cs) || reIsMatch r cs

/-! The recursive-descent parser for the fragment.  Fuel is decremented
on every recursive call; `parseRegex` supplies enough fuel for any
pattern of the fragment, and a fuel-exhausted parse counts as a parse
error, exactly like an invalid pattern. -/

mutual

/-- Parse an alternation (`a|b|c`). -/
def parseAlt : Nat → List Char → Option (RE × List Char)
  | 0, _ => none
  | Nat.succ n, s =>
    match parseCat n s with
    | none => none
    | some (r, s1) => parseAltTail n r s1

/-- Parse the `|`-separated tail of an alternation. -/
def parseAltTail : Nat → RE → List Char → Option (RE × List Char)
  | 0, _, _ => none
  | Nat.succ n, r, s =>
    match s with
    | '|' :: rest =>
      match parseCat n rest with
      | none => none
      | some (r2, s2) => parseAltTail n (RE.alt r r2) s2
    | _ => some (r, s)

/-- Parse a concatenation of starred atoms. -/
def parseCat : Nat → List Char → Option (RE × List Char)
  | 0, _ => none
  | Nat.succ n, s =>
    match parseAtom n s with
    | none => some (RE.eps, s)
    | some (r, s1) =>
      match parseStars n r s1 with
      | none => none
      | some (r1, s2) =>
        match parseCat n s2 with
        | none => none
        | some (r2, s3) => some (RE.cat r1 r2, s3)

/-- Apply any number of postfix `*` operators to a parsed atom. -/
def parseStars : Nat → RE → List Char → Option (RE × List Char)
  | 0, _, _ => none
  | Nat.succ n, r, s =>
    match s with
    | '*' :: rest => parseStars n (RE.star r) rest
    | _ => some (r, s)

/-- Parse one atom: a group, `.`, an escape, or a literal character.
Metacharacters and unsupported constructs fail. -/
def parseAtom : Nat → List Char → Option (RE × List Char)
  | 0, _ => none
  | Nat.succ n, s =>
    match s with
    | '(' :: rest =>
      match parseAlt n rest with
      | some (r, ')' :: s1) => some (r, s1)
      | _ => none
    | '.' :: rest => some (RE.dot, rest)
    | '\\' :: c :: rest => some (RE.chr c, rest)
    | c :: rest =>
      if c == '|' ∨ c == '*' ∨ c == '(' ∨ c == ')' ∨ c == '\\' ∨ c == '[' ∨
          c == ']' ∨ c == '+' ∨ c == '?' ∨ c == '^' ∨ c == '$' ∨ c == '\x7b' ∨
          c == '\x7d' then none
      else some (RE.chr c, rest)
    | [] => none

end

/-- Compile a pattern string (`Regex::new`): `none` is a parse error. -/
def parseRegex (p : String) : Option RE :=
  match parseAlt (2 * p.length + 2) p.toList with
  | some (r, []) => some r
  | _ => none

/-- The match-all regex that `".*"` compiles to. -/
def matchAllRE : RE := RE.cat (RE.star RE.dot) RE.eps

theorem parseRegex_dotStar : parseRegex (".*") = some matchAllRE := by
  decide

theorem reIsMatch_matchAllRE (s : List Char) : reIsMatch matchAllRE s = true := by
  cases s with
  | nil => rfl
  | cons c cs => simp [reIsMatch, rePrefixMatch, reNullable, matchAllRE]

/-! ### `edr/policy.rs`: the `PolicyEngine`

`RuleType` and `Rule` are from `edr/config.rs` (the `description`
metadata field is never consulted by the engine and is omitted).
`ProcessInfo` here carries the fields of `edr/scanner.rs::ProcessInfo`
that `matches_rule` reads: `name`, `path`, `hash` and `command`
(`command` is `cmd_line` split as the list the code joins with spaces).

`PolicyEngine::get_or_compile_regex` memoizes `Regex::new pattern` in a
`HashMap` keyed by the pattern string; compilation is deterministic, so
the cache is semantically transparent and the model collapses it into
the pure `compileOrMatchAll`.  On a compile error the code falls back to
`Regex::new(".*")`. -/

/-- Rule kinds of `edr/config.rs::RuleType`. -/
inductive PRuleType : Type
  | name : String → PRuleType
  | path : String → PRuleType
  | hash : String → PRuleType
  | command : String → PRuleType
deriving DecidableEq

/-- A policy rule (`edr/config.rs::Rule`). -/
structure PRule : Type where
  id : String
  rule_type : PRuleType
deriving DecidableEq

/-- The process fields read by `PolicyEngine::matches_rule`. -/
structure PProcessInfo : Type where
  name : String
  path : Option String
  hash : Option String
  command : List String
deriving DecidableEq

/-- Compile a Command pattern, falling back to the match-all regex
`".*"` when the pattern does not parse
(`PolicyEngine::get_or_compile_regex`). -/
def compileOrMatchAll (pattern : String) : RE :=
  match parseRegex pattern with
  | some r => r
  | none => matchAllRE

/-- Join command-line arguments with single spaces
(`process.command.join(" ")`). -/
def joinSpaces (args : List String) : String :=
  String.intercalate (" ") args

/-- One rule against one process (`PolicyEngine::matches_rule`). -/
def peMatchesRule (rule : PRule) (process : PProcessInfo) : Bool :=
  match rule.rule_type with
  | PRuleType.name value => eqIgnoreAsciiCase process.name value
  | PRuleType.path value =>
    match process.path with
    | some path => eqIgnoreAsciiCase path value
    | none => false
  | PRuleType.hash sha256 =>
    match process.hash with
    | some hash => eqIgnoreAsciiCase hash sha256
    | none => false
  | PRuleType.command pattern =>
    reIsMatch (compileOrMatchAll pattern) (joinSpaces process.command).toList

/-- Policy evaluation (`PolicyEngine::evaluate`): the whitelist is
walked first in declaration order, then the blacklist; the result pairs
the first matching rule with `is_blacklisted`. -/
def peEvaluate (whitelist blacklist : List PRule) (process : PProcessInfo) :
    Option (PRule × Bool) :=
  match whitelist.find? (fun rule => peMatchesRule rule process) with
  | some rule => some (rule, false)
  | none =>
    match blacklist.find? (fun rule => peMatchesRule rule process) with
    | some rule => some (rule, true)
    | none => none

/-! ### `edr/killer.rs`: the `ProcessKiller` (Kill Governor)

`kill_process` takes the outcomes of the platform termination
primitives as oracle arguments: `gracefulRes` is the result of
`graceful_terminate` (`none` = `Ok`), `forceRes` of `force_terminate`.
The single `now` argument stands for the `Instant::now()` reads inside
one call; the real code reads the clock again when recording the
attempt, which can only be later, so the recorded separation between
attempts is at least the modelled one.  The returned `Bool` reports
whether the call got past the cooldown and retry guards and performed a
termination attempt. -/

/-- Kill policy knobs (`edr/config.rs::KillPolicy`), times in ms. -/
structure KillPolicy : Type where
  graceful_kill : Bool
  force_kill_timeout_ms : Nat
  cooldown_ms : Nat
  max_retry_attempts : Nat
deriving DecidableEq

/-- Error values of `edr/killer.rs::KillError`. -/
inductive KillError : Type
  | inCooldown : KillError
  | maxRetriesReached : KillError
  | invalidHandle : KillError
  | systemError : String → KillError
  | notImplemented : KillError
  | accessDenied : KillError
deriving DecidableEq

/-- The killer's mutable state: `cooldown_tracker` (PID to last attempt
time) and `retry_tracker` (PID to failed-attempt count). -/
structure KillerState : Type where
  cooldown_tracker : List (Nat × Nat)
  retry_tracker : List (Nat × Nat)
deriving DecidableEq

/-- The fresh state `ProcessKiller::new` starts from. -/
def emptyKillerState : KillerState := ⟨[], []⟩

/-- The guarded attempt phase of `kill_process`, entered once the
cooldown check has passed: retry guard, then graceful termination if
enabled, then forceful termination. -/
def killAttempt (pol : KillPolicy) (st : KillerState) (now : Nat) (pid : Nat)
    (gracefulRes : Option KillError) (forceRes : Option KillError) :
    Option KillError × KillerState × Bool :=
  let retries := (alLookup st.retry_tracker pid).getD 0
  if pol.max_retry_attempts ≤ retries then
    (some KillError.maxRetriesReached, st, false)
  else if pol.graceful_kill && gracefulRes.isNone then
    (none, { st with cooldown_tracker := alInsert st.cooldown_tracker pid now }, true)
  else
    match forceRes with
    | none =>
      (none, { st with cooldown_tracker := alInsert st.cooldown_tracker pid now }, true)
    | some e =>
      (some e,
        { cooldown_tracker := alInsert st.cooldown_tracker pid now,
          retry_tracker := alInsert st.retry_tracker pid (retries + 1) }, true)

/-- `ProcessKiller::kill_process`: cooldown check, retry check, then the
graceful/forceful attempt.  Result `none` is `Ok`. -/
def killProcess (pol : KillPolicy) (st : KillerState) (now : Nat) (pid : Nat)
    (gracefulRes : Option KillError) (forceRes : Option KillError) :
    Option KillError × KillerState × Bool :=
  match alLookup st.cooldown_tracker pid with
  | some lastAttempt =>
    if now - lastAttempt < pol.cooldown_ms then
      (some KillError.inCooldown, st, false)
    else
      killAttempt pol st now pid gracefulRes forceRes
  | none => killAttempt pol st now pid gracefulRes forceRes

/-- One requested call to `kill_process`. -/
structure KillCall : Type where
  pid : Nat
  now : Nat
  gracefulRes : Option KillError
  forceRes : Option KillError
deriving DecidableEq

/-- Run a sequence of `kill_process` calls, returning the final state
and, per call, the target PID, whether an attempt was performed and the
call's result. -/
def killRun (pol : KillPolicy) :
    KillerState → List KillCall → KillerState × List (Nat × Bool × Option KillError)
  | st, [] => (st, [])
  | st, c :: rest =>
    let r := killProcess pol st c.now c.pid c.gracefulRes c.forceRes
    let next := killRun pol r.2.1 rest
    (next.1, (c.pid, r.2.2, r.1) :: next.2)

/-- Count of calls in a run's output that performed a termination
attempt on `pid` which failed (forceful termination returned an error). -/
def failedCount (pid : Nat) (outs : List (Nat × Bool × Option KillError)) : Nat :=
  (outs.filter (fun o => o.1 == pid && o.2.1 && o.2.2.isSome)).length

/-- Count of calls in a run's output that performed a termination
attempt on `pid`, successful or not. -/
def attemptCount (pid : Nat) (outs : List (Nat × Bool × Option KillError)) : Nat :=
  (outs.filter (fun o => o.1 == pid && o.2.1)).length

/-- The recorded failed-attempt count for a PID. -/
def retryOf (st : KillerState) (pid : Nat) : Nat :=
  (alLookup st.retry_tracker pid).getD 0

/-! ### `main.rs`: the Tauri orchestrator

The flat rule shape (`main.rs::Rule`): `rule_type` is a string tag,
`value` the match target, `enabled` an optional flag; `id`,
`description`, `severity`, `auto_action`, `tags` and the timestamps are
never consulted by the matching code and are omitted.  Likewise
`main.rs::ProcessInfo` carries `memory_usage`, `cpu_usage` (an `f32`),
`status` and `parent_pid`, none of which the scan pipeline reads; the
model keeps `pid`, `name` and `executable_path`.

`compute_sha256_hex` (SHA-256 of a file on disk) appears as the oracle
argument `computeHash : String → Option String`, and the outcome of
`win::kill_process` as `killOk : Nat → Bool`. -/

/-- A policy rule in the orchestrator's flat shape (`main.rs::Rule`). -/
structure ARule : Type where
  rule_type : String
  value : String
  enabled : Option Bool
deriving DecidableEq

/-- The persisted policy document (`main.rs::PolicyConfig`). -/
structure APolicyConfig : Type where
  blacklist : List ARule
  whitelist : List ARule
deriving DecidableEq

/-- The process fields the scan pipeline reads (`main.rs::ProcessInfo`). -/
structure AProcessInfo : Type where
  pid : Nat
  name : String
  executable_path : Option String
deriving DecidableEq

/-- Name matching (`main.rs::matches_rule_name`): ASCII-lowercase both
sides, glob when the pattern contains `*`, literal equality otherwise. -/
def matches_rule_name (name : String) (pat : String) : Bool :=
  let n := asciiLowerStr name
  let p := asciiLowerStr pat
  if p.contains '*' then globMatch p n else n == p

/-- Path matching (`main.rs::matches_rule_path`): same semantics as
name matching, applied to the executable path. -/
def matches_rule_path (path : String) (pat : String) : Bool :=
  let n := asciiLowerStr path
  let p := asciiLowerStr pat
  if p.contains '*' then globMatch p n else n == p

/-- Hash matching (`main.rs::matches_rule_hash`): hash the file at
`path` and compare digests case-insensitively; an uncomputable hash
never matches. -/
def matches_rule_hash (computeHash : String → Option String)
    (path : String) (expectedHex : String) : Bool :=
  match computeHash path with
  | some h => eqIgnoreAsciiCase h expectedHex
  | none => false

/-- One rule against one process, as in the loop bodies of
`is_whitelisted` and `is_blacklisted`: dispatch on the `rule_type` tag;
unknown tags match nothing. -/
def aRuleMatches (computeHash : String → Option String)
    (r : ARule) (pi : AProcessInfo) : Bool :=
  if r.rule_type == ("name") then matches_rule_name pi.name r.value
  else if r.rule_type == ("path") then
    match pi.executable_path with
    | some path => matches_rule_path path r.value
    | none => false
  else if r.rule_type == ("hash") then
    match pi.executable_path with
    | some path => matches_rule_hash computeHash path r.value
    | none => false
  else false

/-- Whitelist scan (`main.rs::is_whitelisted`): rules with
`enabled == Some(false)` are skipped, the first match wins. -/
def is_whitelisted (computeHash : String → Option String)
    (pi : AProcessInfo) (pol : APolicyConfig) : Bool :=
  pol.whitelist.any (fun r => !(r.enabled == some false) && aRuleMatches computeHash r pi)

/-- Blacklist scan (`main.rs::is_blacklisted`), same shape. -/
def is_blacklisted (computeHash : String → Option String)
    (pi : AProcessInfo) (pol : APolicyConfig) : Bool :=
  pol.blacklist.any (fun r => !(r.enabled == some false) && aRuleMatches computeHash r pi)

/-- An activity record as pushed by `main.rs::push_activity` (the `id`
and `timestamp` strings are presentation data and omitted). -/
structure Activity : Type where
  event : String
  message : String
  process_name : Option String
  pid : Option Nat
deriving DecidableEq

/-- Events and kill requests produced for one process record by the loop
body of `start_single_scan`: skip self, skip whitelisted, on a blacklist
match push DETECTED and, when elevated, call `win::kill_process`.  The
second component lists the PIDs handed to `win::kill_process`. -/
def scanProcessSingle (selfPid : Nat) (isAdmin : Bool) (killOk : Nat → Bool)
    (computeHash : String → Option String) (pol : APolicyConfig)
    (p : AProcessInfo) : List Activity × List Nat :=
  if selfPid == p.pid then ([], [])
  else if is_whitelisted computeHash p pol then ([], [])
  else if is_blacklisted computeHash p pol then
    let det : Activity :=
      { event := ("DETECTED"), message := ("Detected ") ++ p.name,
        process_name := some p.name, pid := some p.pid }
    if !isAdmin then
      ([det, { event := ("KILL_FAIL"), message := ("Restricted mode (no admin)"),
               process_name := some p.name, pid := some p.pid }], [])
    else if killOk p.pid then
      ([det, { event := ("KILL_SUCCESS"), message := ("Process terminated"),
               process_name := some p.name, pid := some p.pid }], [p.pid])
    else
      ([det, { event := ("KILL_FAIL"), message := ("Failed to terminate"),
               process_name := some p.name, pid := some p.pid }], [p.pid])
  else ([], [])

/-- The loop body of a `start_daemon` tick for one process record: as
the single scan, plus the `dry_run` guard around the kill, and on a
successful kill the insert of `executable_path` into the
`block_restart_until` map with deadline `now + 5s`.  The third component
is the updated restart-block map. -/
def scanProcessDaemon (selfPid : Nat) (isAdmin : Bool) (dryRun : Bool)
    (killOk : Nat → Bool) (computeHash : String → Option String)
    (pol : APolicyConfig) (now : Nat) (blockMap : List (String × Nat))
    (p : AProcessInfo) : List Activity × List Nat × List (String × Nat) :=
  if selfPid == p.pid then ([], [], blockMap)
  else if is_whitelisted computeHash p pol then ([], [], blockMap)
  else if is_blacklisted computeHash p pol then
    let det : Activity :=
      { event := ("DETECTED"), message := ("Detected ") ++ p.name,
        process_name := some p.name, pid := some p.pid }
    if dryRun then ([det], [], blockMap)
    else if !isAdmin then
      ([det, { event := ("KILL_FAIL"), message := ("Restricted mode (no admin)"),
               process_name := some p.name, pid := some p.pid }], [], blockMap)
    else if killOk p.pid then
      ([det, { event := ("KILL_SUCCESS"), message := ("Process terminated"),
               process_name := some p.name, pid := some p.pid }], [p.pid],
        match p.executable_path with
        | some path => alInsert blockMap path (now + 5000)
        | none => blockMap)
    else
      ([det, { event := ("KILL_FAIL"), message := ("Failed to terminate"),
               process_name := some p.name, pid := some p.pid }], [p.pid], blockMap)
  else ([], [], blockMap)

/-- The `for p in list` loop of `start_single_scan` over a snapshot. -/
def singleScanTick (selfPid : Nat) (isAdmin : Bool) (killOk : Nat → Bool)
    (computeHash : String → Option String) (pol : APolicyConfig) :
    List AProcessInfo → List Activity × List Nat
  | [] => ([], [])
  | p :: rest =>
    let r := scanProcessSingle selfPid isAdmin killOk computeHash pol p
    let next := singleScanTick selfPid isAdmin killOk computeHash pol rest
    (r.1 ++ next.1, r.2 ++ next.2)

/-- The `for p in list` loop of one `start_daemon` tick over a snapshot,
threading the restart-block map. -/
def daemonTick (selfPid : Nat) (isAdmin : Bool) (dryRun : Bool)
    (killOk : Nat → Bool) (computeHash : String → Option String)
    (pol : APolicyConfig) (now : Nat) :
    List (String × Nat) → List AProcessInfo →
    List Activity × List Nat × List (String × Nat)
  | blockMap, [] => ([], [], blockMap)
  | blockMap, p :: rest =>
    let r := scanProcessDaemon selfPid isAdmin dryRun killOk computeHash pol now blockMap p
    let next := daemonTick selfPid isAdmin dryRun killOk computeHash pol now r.2.2 rest
    (r.1 ++ next.1, r.2.1 ++ next.2.1, next.2.2)

/-- The in-memory activity buffer update of `main.rs::push_activity`:
the new activity is inserted at the front and the vector is truncated to
10,000 entries, dropping the oldest (at the back). -/
def pushActivityList {α : Type} (act : α) (v : List α) : List α :=
  let v2 := act :: v
  if 10000 < v2.length then v2.take 10000 else v2

/-! ### `edr/logger.rs`: the `Logger`

`Logger::log_event` is generic in the event payload here; `fmt` stands
for `format_log_event` (JSON serialization of these records cannot
fail, so the formatter is total).  The logger state carries the
in-memory buffer, the lines written to the file sink, and whether a log
file was opened at construction.  `max_memory_logs` is 1000 in
`Logger::new`. -/

/-- Logger state: in-memory events, file lines, and whether a file sink
is attached. -/
structure LoggerState (α : Type) : Type where
  memory : List α
  fileLines : List String
  hasFile : Bool
deriving DecidableEq

/-- The in-memory buffer update inside `Logger::log_event`: push the
event at the back, then pop from the front while the length exceeds
`maxMem` (the `while logs.len() > self.max_memory_logs` loop, in closed
form). -/
def logMemPush {α : Type} (maxMem : Nat) (e : α) (l : List α) : List α :=
  let l2 := l ++ [e]
  if maxMem < l2.length then l2.drop (l2.length - maxMem) else l2

/-- `Logger::log_event`: when logging is disabled return `Ok` at once;
otherwise append to the in-memory buffer (bounded by `maxMem`) and, if a
file sink exists, write the formatted line.  The `Bool` result is `true`
for `Ok`; no error path of the model fails. -/
def logEvent {α : Type} (enabled : Bool) (maxMem : Nat) (fmt : α → String)
    (st : LoggerState α) (e : α) : Bool × LoggerState α :=
  if !enabled then (true, st)
  else
    let mem := logMemPush maxMem e st.memory
    if st.hasFile then
      (true, { memory := mem, fileLines := st.fileLines ++ [fmt e], hasFile := st.hasFile })
    else
      (true, { st with memory := mem })

/-! ### `edr/scanner.rs`: the memoized artifact hasher

`ProcessScanner::calculate_file_hash` reads a file and memoizes its
SHA-256 hex digest in `hash_cache`, keyed by the path string.  The
digest function and the filesystem read are oracle arguments: `digest`
stands for SHA-256-into-lowercase-hex, `fsRead` for `fs::read` (`none`
is a read error).  The cache logic does not depend on either. -/

/-- The body of `ProcessScanner::calculate_file_hash`, returning the
result and the updated `hash_cache`. -/
def calculate_file_hash (digest : List Nat → String)
    (cache : List (String × String)) (fsRead : String → Option (List Nat))
    (filePath : String) : Option String × List (String × String) :=
  match alLookup cache filePath with
  | some cachedHash => (some cachedHash, cache)
  | none =>
    match fsRead filePath with
    | some data =>
      let h := digest data
      (some h, alInsert cache filePath h)
    | none => (none, cache)

/-! ### Helper lemmas about the Kill Governor -/

/-- Case analysis of one `kill_process` call: either it is rejected by a
guard (state unchanged, no attempt), or an attempt succeeds (only the
cooldown time is recorded), or the forceful attempt fails (cooldown time
recorded and the failed-attempt counter incremented, which the retry
guard had just checked to be below the budget). -/
theorem killProcess_cases (pol : KillPolicy) (st : KillerState) (now pid : Nat)
    (g f : Option KillError) :
    (∃ e, killProcess pol st now pid g f = (some e, st, false)) ∨
    killProcess pol st now pid g f =
      (none, { st with cooldown_tracker := alInsert st.cooldown_tracker pid now }, true) ∨
    (∃ e, killProcess pol st now pid g f =
        (some e, { cooldown_tracker := alInsert st.cooldown_tracker pid now,
                   retry_tracker := alInsert st.retry_tracker pid (retryOf st pid + 1) },
          true) ∧
      retryOf st pid < pol.max_retry_attempts) := by
  unfold killProcess killAttempt
  cases hcd : alLookup st.cooldown_tracker pid with
  | some lastAttempt =>
    by_cases hlt : now - lastAttempt < pol.cooldown_ms
    · exact Or.inl ⟨KillError.inCooldown, by simp [hlt]⟩
    · simp only [if_neg hlt]
      by_cases hmax : pol.max_retry_attempts ≤ (alLookup st.retry_tracker pid).getD 0
      · exact Or.inl ⟨KillError.maxRetriesReached, by simp [hmax]⟩
      · simp only [if_neg hmax]
        by_cases hgr : (pol.graceful_kill && g.isNone) = true
        · exact Or.inr (Or.inl (by simp [hgr]))
        · cases hf : f with
          | none => exact Or.inr (Or.inl (by simp [hgr]))
          | some e =>
            refine Or.inr (Or.inr ⟨e, by simp [hgr, retryOf], ?_⟩)
            exact Nat.lt_of_not_le (by simpa [retryOf] using hmax)
  | none =>
    by_cases hmax : pol.max_retry_attempts ≤ (alLookup st.retry_tracker pid).getD 0
    · exact Or.inl ⟨KillError.maxRetriesReached, by simp [hmax]⟩
    · simp only [if_neg hmax]
      by_cases hgr : (pol.graceful_kill && g.isNone) = true
      · exact Or.inr (Or.inl (by simp [hgr]))
      · cases hf : f with
        | none => exact Or.inr (Or.inl (by simp [hgr]))
        | some e =>
          refine Or.inr (Or.inr ⟨e, by simp [hgr, retryOf], ?_⟩)
          exact Nat.lt_of_not_le (by simpa [retryOf] using hmax)

/-- A call that is still inside the cooldown window is rejected with
`InCooldown`, without touching the state or attempting termination. -/
theorem killProcess_in_cooldown (pol : KillPolicy) (st : KillerState)
    (now pid : Nat) (g f : Option KillError) (t : Nat)
    (hcd : alLookup st.cooldown_tracker pid = some t)
    (hlt : now - t < pol.cooldown_ms) :
    killProcess pol st now pid g f = (some KillError.inCooldown, st, false) := by
  unfold killProcess
  rw [hcd]
  simp [hlt]

/-- After any performed attempt, the cooldown tracker maps the PID to
the attempt time. -/
theorem killProcess_attempt_time (pol : KillPolicy) (st : KillerState)
    (now pid : Nat) (g f : Option KillError)
    (hat : (killProcess pol st now pid g f).2.2 = true) :
    alLookup (killProcess pol st now pid g f).2.1.cooldown_tracker pid = some now := by
  rcases killProcess_cases pol st now pid g f with ⟨e, he⟩ | he | ⟨e, he, _⟩
  · rw [he] at hat; simp at hat
  · rw [he]; exact alLookup_alInsert_self _ _ _
  · rw [he]; exact alLookup_alInsert_self _ _ _

/-- The recorded failed-attempt count never decreases across a call. -/
theorem killProcess_retry_mono (pol : KillPolicy) (st : KillerState)
    (now pid0 : Nat) (g f : Option KillError) (pid : Nat) :
    retryOf st pid ≤ retryOf (killProcess pol st now pid0 g f).2.1 pid := by
  rcases killProcess_cases pol st now pid0 g f with ⟨e, he⟩ | he | ⟨e, he, _⟩
  · rw [he]
  · rw [he]; simp [retryOf]
  · rw [he]
    by_cases hp : pid0 = pid
    · subst hp
      simp [retryOf, alLookup_alInsert_self]
    · simp [retryOf, alLookup_alInsert_ne _ _ _ _ hp]

/-- A failed attempt increments exactly the target PID's counter, and
only happens below the retry budget; any other outcome leaves the
counter unchanged. -/
theorem killProcess_retry_step (pol : KillPolicy) (st : KillerState)
    (now pid0 : Nat) (g f : Option KillError) (pid : Nat) :
    (((killProcess pol st now pid0 g f).2.2 = true ∧
        (killProcess pol st now pid0 g f).1.isSome = true ∧ pid0 = pid) →
      retryOf (killProcess pol st now pid0 g f).2.1 pid = retryOf st pid + 1 ∧
      retryOf st pid < pol.max_retry_attempts) ∧
    (¬((killProcess pol st now pid0 g f).2.2 = true ∧
        (killProcess pol st now pid0 g f).1.isSome = true ∧ pid0 = pid) →
      retryOf (killProcess pol st now pid0 g f).2.1 pid = retryOf st pid) := by
  rcases killProcess_cases pol st now pid0 g f with ⟨e, he⟩ | he | ⟨e, he, hlt⟩
  · constructor
    · intro h; rw [he] at h; simp at h
    · intro _; rw [he]
  · constructor
    · intro h; rw [he] at h; simp at h
    · intro _; rw [he]; simp [retryOf]
  · constructor
    · intro h
      obtain ⟨_, _, hp⟩ := h
      subst hp
      rw [he]
      exact ⟨by simp [retryOf, alLookup_alInsert_self], hlt⟩
    · intro h
      rw [he] at h ⊢
      by_cases hp : pid0 = pid
      · exact absurd ⟨rfl, by simp, hp⟩ h
      · simp [retryOf, alLookup_alInsert_ne _ _ _ _ hp]

/-- Over any run of calls, the number of failed attempts on a PID is
bounded by the remaining retry budget of the starting state. -/
theorem failedCount_le (pol : KillPolicy) (pid : Nat) :
    ∀ (calls : List KillCall) (st : KillerState),
      failedCount pid (killRun pol st calls).2 ≤
        pol.max_retry_attempts - retryOf st pid := by
  intro calls
  induction calls with
  | nil => intro st; simp [killRun, failedCount]
  | cons c rest ih =>
    intro st
    have hstep := killProcess_retry_step pol st c.now c.pid c.gracefulRes c.forceRes pid
    have hmono := killProcess_retry_mono pol st c.now c.pid c.gracefulRes c.forceRes pid
    have hih := ih (killProcess pol st c.now c.pid c.gracefulRes c.forceRes).2.1
    simp only [killRun, failedCount, List.filter] at hih ⊢
    by_cases hcond : (c.pid == pid &&
        (killProcess pol st c.now c.pid c.gracefulRes c.forceRes).2.2 &&
        ((killProcess pol st c.now c.pid c.gracefulRes c.forceRes).1).isSome) = true
    · have hc : (killProcess pol st c.now c.pid c.gracefulRes c.forceRes).2.2 = true ∧
          ((killProcess pol st c.now c.pid c.gracefulRes c.forceRes).1).isSome = true ∧
          c.pid = pid := by
        simp only [Bool.and_eq_true, beq_iff_eq] at hcond
        exact ⟨hcond.1.2, hcond.2, hcond.1.1⟩
      obtain ⟨heq, hlt⟩ := hstep.1 hc
      rw [hcond]
      simp only [List.length_cons]
      rw [heq] at hih
      omega
    · rw [Bool.not_eq_true] at hcond
      rw [hcond]
      have heq : retryOf (killProcess pol st c.now c.pid c.gracefulRes c.forceRes).2.1 pid
          = retryOf st pid ∨
          retryOf st pid ≤ retryOf (killProcess pol st c.now c.pid c.gracefulRes c.forceRes).2.1 pid :=
        Or.inr hmono
      rcases heq with h | h
      · rw [h] at hih; exact hih
      · exact le_trans hih (by omega)

/-! ### Helper lemmas about the scan loops -/

/-- In one single-scan loop body, every emitted activity and every kill
request carries the PID of the processed record, and the self record
produces neither. -/
theorem scanProcessSingle_pids (selfPid : Nat) (isAdmin : Bool)
    (killOk : Nat → Bool) (computeHash : String → Option String)
    (pol : APolicyConfig) (p : AProcessInfo) :
    ((scanProcessSingle selfPid isAdmin killOk computeHash pol p).1.all
      (fun a => a.pid == some p.pid)) = true ∧
    ((scanProcessSingle selfPid isAdmin killOk computeHash pol p).2.all
      (fun k => k == p.pid)) = true ∧
    (selfPid = p.pid →
      scanProcessSingle selfPid isAdmin killOk computeHash pol p = ([], [])) := by
  unfold scanProcessSingle
  refine ⟨?_, ?_, ?_⟩
  · split_ifs <;> simp_all
  · split_ifs <;> simp_all
  · intro h
    simp [h]

/-- The daemon-tick analogue of `scanProcessSingle_pids`. -/
theorem scanProcessDaemon_pids (selfPid : Nat) (isAdmin dryRun : Bool)
    (killOk : Nat → Bool) (computeHash : String → Option String)
    (pol : APolicyConfig) (now : Nat) (blockMap : List (String × Nat))
    (p : AProcessInfo) :
    ((scanProcessDaemon selfPid isAdmin dryRun killOk computeHash pol now blockMap p).1.all
      (fun a => a.pid == some p.pid)) = true ∧
    ((scanProcessDaemon selfPid isAdmin dryRun killOk computeHash pol now blockMap p).2.1.all
      (fun k => k == p.pid)) = true ∧
    (selfPid = p.pid →
      scanProcessDaemon selfPid isAdmin dryRun killOk computeHash pol now blockMap p
        = ([], [], blockMap)) := by
  unfold scanProcessDaemon
  refine ⟨?_, ?_, ?_⟩
  · split_ifs <;> simp_all
  · split_ifs <;> simp_all
  · intro h
    simp [h]

/-- Over a whole single-scan tick, no activity and no kill request
carries the agent's own PID. -/
theorem singleScanTick_self (selfPid : Nat) (isAdmin : Bool) (killOk : Nat → Bool)
    (computeHash : String → Option String) (pol : APolicyConfig) :
    ∀ procs : List AProcessInfo,
      ((singleScanTick selfPid isAdmin killOk computeHash pol procs).1.all
        (fun a => !(a.pid == some selfPid))) = true ∧
      ((singleScanTick selfPid isAdmin killOk computeHash pol procs).2.all
        (fun k => !(k == selfPid))) = true := by
  intro procs
  induction procs with
  | nil => simp [singleScanTick]
  | cons p rest ih =>
    have hp := scanProcessSingle_pids selfPid isAdmin killOk computeHash pol p
    simp only [singleScanTick, List.all_append, Bool.and_eq_true]
    by_cases hself : selfPid = p.pid
    · rw [hp.2.2 hself]
      simpa using ih
    · refine ⟨⟨?_, ih.1⟩, ?_, ih.2⟩
      · apply List.all_eq_true.mpr
        intro a ha
        have h1 := List.all_eq_true.mp hp.1 a ha
        simp only [beq_iff_eq] at h1
        simp [h1]
        exact fun hc => hself hc.symm
      · apply List.all_eq_true.mpr
        intro k hk
        have h1 := List.all_eq_true.mp hp.2.1 k hk
        simp only [beq_iff_eq] at h1
        simp [h1]
        exact fun hc => hself hc.symm

/-- Over a whole daemon tick, no activity and no kill request carries
the agent's own PID. -/
theorem daemonTick_self (selfPid : Nat) (isAdmin dryRun : Bool) (killOk : Nat → Bool)
    (computeHash : String → Option String) (pol : APolicyConfig) (now : Nat) :
    ∀ (procs : List AProcessInfo) (blockMap : List (String × Nat)),
      ((daemonTick selfPid isAdmin dryRun killOk computeHash pol now blockMap procs).1.all
        (fun a => !(a.pid == some selfPid))) = true ∧
      ((daemonTick selfPid isAdmin dryRun killOk computeHash pol now blockMap procs).2.1.all
        (fun k => !(k == selfPid))) = true := by
  intro procs
  induction procs with
  | nil => intro bm; simp [daemonTick]
  | cons p rest ih =>
    intro bm
    have hp := scanProcessDaemon_pids selfPid isAdmin dryRun killOk computeHash pol now bm p
    simp only [daemonTick, List.all_append, Bool.and_eq_true]
    by_cases hself : selfPid = p.pid
    · rw [hp.2.2 hself]
      simpa using ih bm
    · refine ⟨⟨?_, (ih _).1⟩, ?_, (ih _).2⟩
      · apply List.all_eq_true.mpr
        intro a ha
        have h1 := List.all_eq_true.mp hp.1 a ha
        simp only [beq_iff_eq] at h1
        simp [h1]
        exact fun hc => hself hc.symm
      · apply List.all_eq_true.mpr
        intro k hk
        have h1 := List.all_eq_true.mp hp.2.1 k hk
        simp only [beq_iff_eq] at h1
        simp [h1]
        exact fun hc => hself hc.symm

/-! ### The claims -/

/-- Claim C1: on every scan tick, single or daemon, the record with the
agent's own PID is skipped before policy evaluation; no DETECTED,
KILL_SUCCESS or KILL_FAIL activity carries the agent's PID and the
agent's PID is never handed to `win::kill_process`, regardless of the
policy. -/
theorem C1_self_immunity (selfPid : Nat) (isAdmin dryRun : Bool)
    (killOk : Nat → Bool) (computeHash : String → Option String)
    (pol : APolicyConfig) (now : Nat) (blockMap : List (String × Nat))
    (procs : List AProcessInfo) :
    ((singleScanTick selfPid isAdmin killOk computeHash pol procs).1.all
      (fun a => !(a.pid == some selfPid))) = true ∧
    ((singleScanTick selfPid isAdmin killOk computeHash pol procs).2.all
      (fun k => !(k == selfPid))) = true ∧
    ((daemonTick selfPid isAdmin dryRun killOk computeHash pol now blockMap procs).1.all
      (fun a => !(a.pid == some selfPid))) = true ∧
    ((daemonTick selfPid isAdmin dryRun killOk computeHash pol now blockMap procs).2.1.all
      (fun k => !(k == selfPid))) = true :=
  ⟨(singleScanTick_self selfPid isAdmin killOk computeHash pol procs).1,
   (singleScanTick_self selfPid isAdmin killOk computeHash pol procs).2,
   (daemonTick_self selfPid isAdmin dryRun killOk computeHash pol now procs blockMap).1,
   (daemonTick_self selfPid isAdmin dryRun killOk computeHash pol now procs blockMap).2⟩

/-- Claim C2: if any enabled allow (whitelist) rule matches a record, the
record is whitelisted, so the scan loops emit no activity and request no
kill for it, whatever the deny rules say; and in `PolicyEngine::evaluate`
a matching whitelist rule makes the verdict a non-blacklist match. -/
theorem C2_allow_dominance :
    (∀ (computeHash : String → Option String) (pol : APolicyConfig)
        (r : ARule) (p : AProcessInfo) (selfPid : Nat) (isAdmin dryRun : Bool)
        (killOk : Nat → Bool) (now : Nat) (blockMap : List (String × Nat)),
      r ∈ pol.whitelist → (r.enabled == some false) = false →
      aRuleMatches computeHash r p = true →
      is_whitelisted computeHash p pol = true ∧
      scanProcessSingle selfPid isAdmin killOk computeHash pol p = ([], []) ∧
      scanProcessDaemon selfPid isAdmin dryRun killOk computeHash pol now blockMap p
        = ([], [], blockMap)) ∧
    (∀ (whitelist blacklist : List PRule) (r : PRule) (process : PProcessInfo),
      r ∈ whitelist → peMatchesRule r process = true →
      ∃ r2, peEvaluate whitelist blacklist process = some (r2, false)) := by
  constructor
  · intro computeHash pol r p selfPid isAdmin dryRun killOk now blockMap hmem hen hmatch
    have hw : is_whitelisted computeHash p pol = true := by
      apply List.any_eq_true.mpr
      exact ⟨r, hmem, by simp [hen, hmatch]⟩
    refine ⟨hw, ?_, ?_⟩
    · unfold scanProcessSingle
      split_ifs with h1 <;> simp_all
    · unfold scanProcessDaemon
      split_ifs with h1 <;> simp_all
  · intro whitelist blacklist r process hmem hmatch
    have hs : (whitelist.find? (fun rule => peMatchesRule rule process)).isSome = true := by
      rw [List.find?_isSome]
      exact ⟨r, hmem, hmatch⟩
    obtain ⟨r2, hr2⟩ := Option.isSome_iff_exists.mp hs
    exact ⟨r2, by simp [peEvaluate, hr2]⟩

/-- Concrete allow rule used by the C2 witness (orchestrator shape). -/
def chromeAllowA : ARule :=
  { rule_type := ("name"), value := ("chrome.exe"), enabled := some true }

/-- Concrete deny rule matching the same process (orchestrator shape). -/
def chromeDenyA : ARule :=
  { rule_type := ("name"), value := ("chrome.exe"), enabled := none }

/-- Concrete policy whose allow and deny lists both match the process. -/
def chromePolicyA : APolicyConfig :=
  { blacklist := [chromeDenyA], whitelist := [chromeAllowA] }

/-- Concrete process record matched by both lists. -/
def chromeProcA : AProcessInfo :=
  { pid := 22, name := ("Chrome.EXE"), executable_path := none }

/-- Concrete allow rule used by the C2 witness (`PolicyEngine` shape). -/
def chromeAllowP : PRule :=
  { id := ("w1"), rule_type := PRuleType.name ("chrome.exe") }

/-- Concrete deny rule (`PolicyEngine` shape). -/
def chromeDenyP : PRule :=
  { id := ("b1"), rule_type := PRuleType.name ("chrome.exe") }

/-- Concrete process record (`PolicyEngine` shape). -/
def chromeProcP : PProcessInfo :=
  { name := ("Chrome.EXE"), path := none, hash := none, command := [] }

/-- Claim C2 witness. -/
theorem C2_allow_dominance_witness :
    (is_whitelisted (fun _ => none) chromeProcA chromePolicyA = true ∧
      scanProcessSingle 1 true (fun _ => true) (fun _ => none) chromePolicyA chromeProcA
        = ([], []) ∧
      scanProcessDaemon 1 true false (fun _ => true) (fun _ => none) chromePolicyA 0 []
        chromeProcA = ([], [], [])) ∧
    (∃ r2, peEvaluate [chromeAllowP] [chromeDenyP] chromeProcP = some (r2, false)) :=
  ⟨C2_allow_dominance.1 (fun _ => none) chromePolicyA chromeAllowA chromeProcA 1 true false
      (fun _ => true) 0 [] (by simp [chromePolicyA]) (by decide) (by decide),
   C2_allow_dominance.2 [chromeAllowP] [chromeDenyP] chromeAllowP chromeProcP
      (by simp) (by decide)⟩

/-- Claim C3 counterexample: the pattern `(` does not compile, yet the Command
rule built from it matches a process record — `get_or_compile_regex`
falls back to the match-all regex `.*` instead of a match-nothing one,
and `policy.rs` emits no warning event (it has no event channel at all,
only a `debug!` trace).  This refutes the claim that an unparsable
pattern matches no record. -/
theorem C3_counterexample :
    parseRegex ("(") = none ∧
    peMatchesRule { id := ("r1"), rule_type := PRuleType.command ("(") }
      { name := ("x.exe"), path := none, hash := none, command := [("x")] } = true := by
  constructor
  · decide
  · decide

/-- Claim C3 amended: a Command rule whose pattern fails to compile matches
every process record, because the engine substitutes the match-all
regex `.*`; no warning-severity event is recorded (the fallback is only
logged at debug level). -/
theorem C3_invalid_pattern_matches_all (i pattern : String)
    (process : PProcessInfo) (h : parseRegex pattern = none) :
    peMatchesRule { id := i, rule_type := PRuleType.command pattern } process = true := by
  simp [peMatchesRule, compileOrMatchAll, h, reIsMatch_matchAllRE]

/-- Claim C3 witness. -/
theorem C3_invalid_pattern_matches_all_witness :
    peMatchesRule { id := ("r2"), rule_type := PRuleType.command ("[") }
      { name := ("y.exe"), path := none, hash := none, command := [] } = true :=
  C3_invalid_pattern_matches_all ("r2") ("[")
    { name := ("y.exe"), path := none, hash := none, command := [] } (by decide)

/-- Claim C4 counterexample: `kill_process` never consults the agent's own
PID.  Taking 42 as the agent's current PID, a request to kill PID 42
from a fresh state is not rejected: the guards pass, a forceful
termination attempt is performed (third component `true`) and the call
returns `Ok`, recording the attempt in the cooldown tracker. -/
theorem C4_counterexample :
    killProcess
      { graceful_kill := false, force_kill_timeout_ms := 5000,
        cooldown_ms := 1000, max_retry_attempts := 3 }
      emptyKillerState 0 42 none none
      = (none, { cooldown_tracker := [(42, 0)], retry_tracker := [] }, true) := by
  decide

/-- Claim C4 amended: the Kill Governor applies only the cooldown and retry
guards; any PID that passes them — the agent's own included — gets a
termination attempt.  Self-protection lives solely in the scan loops,
which skip the self record before ever calling the Governor. -/
theorem C4_no_self_check (pol : KillPolicy) (st : KillerState) (now pid : Nat)
    (g f : Option KillError)
    (hcd : alLookup st.cooldown_tracker pid = none)
    (hrt : alLookup st.retry_tracker pid = none)
    (hmax : 0 < pol.max_retry_attempts) :
    (killProcess pol st now pid g f).2.2 = true := by
  unfold killProcess killAttempt
  rw [hcd, hrt]
  simp only [Option.getD_none]
  rw [if_neg (by omega)]
  split
  · rfl
  · split <;> rfl

/-- Claim C4 witness. -/
theorem C4_no_self_check_witness :
    (killProcess
      { graceful_kill := true, force_kill_timeout_ms := 5000,
        cooldown_ms := 1000, max_retry_attempts := 3 }
      emptyKillerState 7 99 (some KillError.notImplemented) none).2.2 = true :=
  C4_no_self_check _ emptyKillerState 7 99 (some KillError.notImplemented) none
    (by decide) (by decide) (by decide)

/-- Claim C5: the cooldown contract of `kill_process`.  First, a request
inside the cooldown window returns `InCooldown`, unchanged state, no
attempt.  Second, whenever an attempt is performed — graceful success,
forceful success or forceful failure alike — the cooldown tracker is
updated to the attempt time.  Third, two calls on the same PID that both
perform attempts are therefore separated by at least `cooldown_ms`. -/
theorem C5_cooldown :
    (∀ (pol : KillPolicy) (st : KillerState) (now pid : Nat)
        (g f : Option KillError) (t : Nat),
      alLookup st.cooldown_tracker pid = some t → now - t < pol.cooldown_ms →
      killProcess pol st now pid g f = (some KillError.inCooldown, st, false)) ∧
    (∀ (pol : KillPolicy) (st : KillerState) (now pid : Nat) (g f : Option KillError),
      (killProcess pol st now pid g f).2.2 = true →
      alLookup (killProcess pol st now pid g f).2.1.cooldown_tracker pid = some now) ∧
    (∀ (pol : KillPolicy) (st : KillerState) (t1 t2 pid : Nat)
        (g1 f1 g2 f2 : Option KillError),
      (killProcess pol st t1 pid g1 f1).2.2 = true →
      (killProcess pol (killProcess pol st t1 pid g1 f1).2.1 t2 pid g2 f2).2.2 = true →
      t1 ≤ t2 → t1 + pol.cooldown_ms ≤ t2) := by
  refine ⟨killProcess_in_cooldown, killProcess_attempt_time, ?_⟩
  intro pol st t1 t2 pid g1 f1 g2 f2 h1 h2 hle
  have hcd := killProcess_attempt_time pol st t1 pid g1 f1 h1
  by_cases hlt : t2 - t1 < pol.cooldown_ms
  · have := killProcess_in_cooldown pol (killProcess pol st t1 pid g1 f1).2.1
      t2 pid g2 f2 t1 hcd hlt
    rw [this] at h2
    simp at h2
  · omega

/-- Claim C5 witness. -/
theorem C5_cooldown_witness :
    (killProcess
        { graceful_kill := false, force_kill_timeout_ms := 5000,
          cooldown_ms := 1000, max_retry_attempts := 3 }
        { cooldown_tracker := [(8, 100)], retry_tracker := [] } 300 8 none none
      = (some KillError.inCooldown,
          { cooldown_tracker := [(8, 100)], retry_tracker := [] }, false)) ∧
    (alLookup (killProcess
        { graceful_kill := false, force_kill_timeout_ms := 5000,
          cooldown_ms := 1000, max_retry_attempts := 3 }
        emptyKillerState 400 8 none none).2.1.cooldown_tracker 8 = some 400) ∧
    (400 + 1000 ≤ 1500) :=
  ⟨C5_cooldown.1 _ _ 300 8 none none 100 (by decide) (by decide),
   C5_cooldown.2.1 _ emptyKillerState 400 8 none none (by decide),
   C5_cooldown.2.2
      { graceful_kill := false, force_kill_timeout_ms := 5000,
        cooldown_ms := 1000, max_retry_attempts := 3 }
      emptyKillerState 400 1500 8 none none none none
      (by decide) (by decide) (by decide)⟩

/-- Claim C6 counterexample: with `max_retry_attempts = 1`, two successive
requests for PID 7, both of whose forceful terminations succeed, each
perform a termination attempt: the Governor performs 2 attempts on the
PID even though the budget is 1, because only failed attempts increment
`retry_tracker`. -/
theorem C6_counterexample :
    attemptCount 7
      (killRun
        { graceful_kill := false, force_kill_timeout_ms := 100,
          cooldown_ms := 3, max_retry_attempts := 1 }
        emptyKillerState
        [{ pid := 7, now := 0, gracefulRes := none, forceRes := none },
         { pid := 7, now := 5, gracefulRes := none, forceRes := none }]).2 = 2 := by
  decide

/-- Claim C6 amended: the retry budget bounds the *failed* attempts.  For any
PID and any sequence of requests from a fresh Governor, the number of
performed attempts whose forceful termination failed is at most
`max_retry_attempts`; and once the recorded failed-attempt count has
reached the budget, a request past the cooldown check returns
`RetriesExhausted` with no attempt and unchanged state.  Successful
attempts do not consume the budget. -/
theorem C6_retry_bound :
    (∀ (pol : KillPolicy) (calls : List KillCall) (pid : Nat),
      failedCount pid (killRun pol emptyKillerState calls).2 ≤ pol.max_retry_attempts) ∧
    (∀ (pol : KillPolicy) (st : KillerState) (now pid : Nat) (g f : Option KillError),
      (∀ t, alLookup st.cooldown_tracker pid = some t → pol.cooldown_ms ≤ now - t) →
      pol.max_retry_attempts ≤ retryOf st pid →
      killProcess pol st now pid g f = (some KillError.maxRetriesReached, st, false)) := by
  constructor
  · intro pol calls pid
    have := failedCount_le pol pid calls emptyKillerState
    simpa [retryOf, emptyKillerState, alLookup] using this
  · intro pol st now pid g f hcd hmax
    have hg : pol.max_retry_attempts ≤ (alLookup st.retry_tracker pid).getD 0 := by
      simpa [retryOf] using hmax
    unfold killProcess
    cases h : alLookup st.cooldown_tracker pid with
    | some t =>
      have h1 : ¬(now - t < pol.cooldown_ms) := by
        have := hcd t h
        omega
      simp only [killAttempt, if_neg h1, if_pos hg]
    | none =>
      simp only [killAttempt, if_pos hg]

/-- Claim C6 witness. -/
theorem C6_retry_bound_witness :
    (failedCount 9
      (killRun
        { graceful_kill := false, force_kill_timeout_ms := 100,
          cooldown_ms := 3, max_retry_attempts := 2 }
        emptyKillerState
        [{ pid := 9, now := 0, gracefulRes := none,
           forceRes := some KillError.accessDenied },
         { pid := 9, now := 10, gracefulRes := none,
           forceRes := some KillError.accessDenied },
         { pid := 9, now := 20, gracefulRes := none,
           forceRes := some KillError.accessDenied }]).2 ≤ 2) ∧
    (killProcess
      { graceful_kill := false, force_kill_timeout_ms := 100,
        cooldown_ms := 3, max_retry_attempts := 1 }
      { cooldown_tracker := [(9, 0)], retry_tracker := [(9, 1)] } 50 9 none none
      = (some KillError.maxRetriesReached,
          { cooldown_tracker := [(9, 0)], retry_tracker := [(9, 1)] }, false)) :=
  ⟨C6_retry_bound.1 _ _ 9,
   C6_retry_bound.2 _ _ 50 9 none none (by decide) (by decide)⟩

/-- Claim C7: the restart-block map is written but never consulted.  In a
daemon tick where the snapshot holds a process whose executable path has
an unexpired restart-block entry (blocked until 4500, now 1000) and the
policy matches nothing, the tick emits no activity, requests no kill and
leaves the map unchanged — the process is not treated as a deny match
and no rule id `restart_block` exists anywhere in the pipeline, contrary
to the claim. -/
theorem C7_restart_block_not_enforced :
    daemonTick 1 true false (fun _ => true) (fun _ => none)
      { blacklist := [], whitelist := [] } 1000
      [(("C:\\apps\\evil.exe"), 4500)]
      [{ pid := 5, name := ("evil.exe"),
         executable_path := some ("C:\\apps\\evil.exe") }]
      = ([], [], [(("C:\\apps\\evil.exe"), 4500)]) := by
  decide

/-- Claim C8: both in-memory event stores respect the 10,000 bound.  The
orchestrator's activity buffer (`push_activity`) never exceeds 10,000
entries, and when it is full the append drops exactly the oldest entry
(the last one, since new entries go to the front).  The CLI logger's
buffer (`Logger::log_event`) never exceeds its 1,000-entry cap, so it
stays below 10,000 a fortiori. -/
theorem C8_ring_buffer_bound :
    (∀ (α : Type) (act : α) (v : List α),
      v.length ≤ 10000 → (pushActivityList act v).length ≤ 10000) ∧
    (∀ (α : Type) (act : α) (v : List α),
      v.length = 10000 → pushActivityList act v = act :: v.dropLast) ∧
    (∀ (α : Type) (e : α) (l : List α), (logMemPush 1000 e l).length ≤ 1000) := by
  refine ⟨?_, ?_, ?_⟩
  · intro α act v hv
    simp only [pushActivityList]
    split
    · simp
    · simp only [List.length_cons] at *
      omega
  · intro α act v hv
    have h1 : (10000 : Nat) = 9999 + 1 := rfl
    simp only [pushActivityList]
    rw [if_pos (by simp [hv])]
    rw [h1, List.take_succ_cons]
    rw [List.dropLast_eq_take, hv]
  · intro α e l
    simp only [logMemPush]
    split
    · simp only [List.length_drop]
      omega
    · omega

/-- Claim C8 witness. -/
theorem C8_ring_buffer_bound_witness :
    ((pushActivityList 0 (List.replicate 10000 0)).length ≤ 10000) ∧
    (pushActivityList 0 (List.replicate 10000 0)
      = 0 :: (List.replicate 10000 0).dropLast) :=
  ⟨C8_ring_buffer_bound.1 Nat 0 (List.replicate 10000 0)
      (by rw [List.length_replicate]),
   C8_ring_buffer_bound.2.1 Nat 0 (List.replicate 10000 0)
      (by rw [List.length_replicate])⟩

/-- Claim C9: the hash cache is idempotent.  Against a fixed filesystem a
repeated call returns the same result as the first; once a call has
produced a digest, every later call returns that digest unchanged — even
if the file's bytes change or it becomes unreadable — because cache
entries are never invalidated; and an unreadable, uncached path yields
`None` with the cache untouched. -/
theorem C9_hash_cache_idempotent :
    (∀ (digest : List Nat → String) (cache : List (String × String))
        (fsRead : String → Option (List Nat)) (p : String),
      (calculate_file_hash digest (calculate_file_hash digest cache fsRead p).2
          fsRead p).1
        = (calculate_file_hash digest cache fsRead p).1) ∧
    (∀ (digest : List Nat → String) (cache : List (String × String))
        (fsRead fsRead2 : String → Option (List Nat)) (p h : String),
      (calculate_file_hash digest cache fsRead p).1 = some h →
      (calculate_file_hash digest (calculate_file_hash digest cache fsRead p).2
          fsRead2 p).1 = some h) ∧
    (∀ (digest : List Nat → String) (cache : List (String × String))
        (fsRead : String → Option (List Nat)) (p : String),
      alLookup cache p = none → fsRead p = none →
      calculate_file_hash digest cache fsRead p = (none, cache)) := by
  refine ⟨?_, ?_, ?_⟩
  · intro digest cache fsRead p
    unfold calculate_file_hash
    cases hc : alLookup cache p with
    | some h => simp [hc]
    | none =>
      cases hf : fsRead p with
      | some data => simp [hc, hf, alLookup_alInsert_self]
      | none => simp [hc, hf]
  · intro digest cache fsRead fsRead2 p h hfirst
    unfold calculate_file_hash at hfirst ⊢
    cases hc : alLookup cache p with
    | some h0 =>
      rw [hc] at hfirst
      simp at hfirst
      simp [hc, hfirst]
    | none =>
      rw [hc] at hfirst
      cases hf : fsRead p with
      | some data =>
        rw [hf] at hfirst
        simp at hfirst
        simp [hc, hf, alLookup_alInsert_self, hfirst]
      | none =>
        rw [hf] at hfirst
        simp at hfirst
  · intro digest cache fsRead p hc hf
    unfold calculate_file_hash
    simp [hc, hf]

/-- Claim C9 witness. -/
theorem C9_hash_cache_idempotent_witness :
    ((calculate_file_hash (fun _ => ("d1"))
        (calculate_file_hash (fun _ => ("d1")) [] (fun _ => some []) ("a.exe")).2
        (fun _ => none) ("a.exe")).1 = some ("d1")) ∧
    (calculate_file_hash (fun _ => ("d1")) [] (fun _ => none) ("b.exe") = (none, [])) :=
  ⟨C9_hash_cache_idempotent.2.1 (fun _ => ("d1")) [] (fun _ => some [])
      (fun _ => none) ("a.exe") ("d1") (by decide),
   C9_hash_cache_idempotent.2.2 (fun _ => ("d1")) [] (fun _ => none) ("b.exe")
      (by decide) (by decide)⟩

/-- Claim C10: when logging is disabled, `Logger::log_event` returns `Ok`
immediately and leaves the whole logger state — the in-memory buffer
and the file lines — untouched: events are silently dropped, not
errors. -/
theorem C10_disabled_logging_is_noop {α : Type} (maxMem : Nat)
    (fmt : α → String) (st : LoggerState α) (e : α) :
    logEvent false maxMem fmt st e = (true, st) := by
  rfl

end Edr
